import Mathlib

/-!
# Verification of the gitmind change-clustering and multi-commit engine

Shallow embedding of `internal/splitter/multicommit.go` (package `splitter`)
of the gitmind repository, together with proofs and refutations of the
specification's claims about it.

Modelling conventions:
* Go `float64` scores are modelled as exact rationals `ℚ`.  Every score
  produced by the similarity engine is built from the literals 0, 0.3, 0.4,
  0.5, 0.7, 1.0 by weighted sums and halving, so the algebraic structure of
  the claims is preserved exactly.
* Go strings are modelled as Lean `String` at character granularity; Go's
  byte-level `len` coincides with the character count on ASCII inputs, and
  `strings.ToLower` / `unicode.IsSpace` are modelled by their ASCII behaviour.
* Go maps used as sets (`map[string]bool`) are modelled as `Finset String`;
  the code only consumes their size and membership, which are iteration-order
  independent.
* `Change.Message` and `Change.Metadata` (a `map[string]interface{}`) are
  omitted: no function under verification reads them.
* `Cluster.Description` is omitted: it is produced by iterating Go maps
  (unspecified order) and no claim concerns it.
-/

namespace GitMind

/-! ## Data model (`splitter.Hunk`, `splitter.Change`, `splitter.Cluster`) -/

/-- `splitter.Hunk`: a diff hunk.  `EndLine` is declared in the Go struct but
never assigned by the parser (it stays at its zero value). -/
structure Hunk where
  File : String
  StartLine : Nat
  EndLine : Nat
  Content : String
  «Type» : String
  deriving DecidableEq, Repr

/-- `splitter.Change` (Message and Metadata omitted, see header). -/
structure Change where
  Files : List String
  Functions : List String
  Hunks : List Hunk
  deriving DecidableEq, Repr

/-- `splitter.Cluster` (Description omitted, see header). -/
structure Cluster where
  Changes : List Change
  Score : ℚ
  deriving DecidableEq, Repr

/-- The zero value used when indexing out of range (never reached on the
in-range indices the code actually uses). -/
def defaultChange : Change := ⟨[], [], []⟩

def defaultCluster : Cluster := ⟨[], 0⟩

/-- `config.MultiCommit`: the configuration consumed by the splitter. -/
structure MultiCommitConfig where
  enabled : Bool
  maxClusters : Nat
  similarityThreshold : ℚ
  promptUser : Bool

/-! ## Go standard-library string helpers used by the splitter -/

/-- `strings.HasPrefix`. -/
def strStartsWith (s pre : String) : Bool :=
  pre.toList.isPrefixOf s.toList

/-- `strings.TrimPrefix`. -/
def trimPrefixStr (s pre : String) : String :=
  if strStartsWith s pre then String.mk (s.toList.drop pre.toList.length) else s

/-- `strings.TrimSuffix`. -/
def trimSuffixStr (s suf : String) : String :=
  if suf.toList.isSuffixOf s.toList then
    String.mk (s.toList.take (s.toList.length - suf.toList.length))
  else s

/-- `strings.Contains`. -/
def strContains (s sub : String) : Bool :=
  decide (List.IsInfix sub.toList s.toList)

/-- The cutset `"(){}[].,;:"` of `extractKeywords`. -/
def trimCutset : List Char := ['(', ')', '\x7b', '\x7d', '[', ']', '.', ',', ';', ':']

/-- `strings.Trim(word, "(){}[].,;:")`: strip leading and trailing cutset
characters. -/
def strTrim (s : String) : String :=
  String.mk (((s.toList.dropWhile trimCutset.contains).reverse.dropWhile
    trimCutset.contains).reverse)

/-- `strings.ToLower` (ASCII). -/
def toLowerStr (s : String) : String := s.map Char.toLower

/-- `strings.Fields`: whitespace-separated fields, no empties. -/
def fields (s : String) : List String :=
  (s.split (fun c => c.isWhitespace)).filter (fun w => decide (w ≠ ""))

/-- `path/filepath.Dir` for slash-separated paths.  (`filepath.Clean`
normalisation is elided: paths coming from a staged diff are already clean.) -/
def filepathDir (p : String) : String :=
  let parts := p.splitOn "/"
  if parts.length ≤ 1 then "." else String.intercalate "/" parts.dropLast

/-- `path/filepath.Base` (for paths without trailing slashes). -/
def filepathBase (p : String) : String :=
  match (p.splitOn "/").getLast? with
  | none => "."
  | some b => if b = "" then "." else b

/-- `path/filepath.Ext`: the suffix of the final path element starting at its
last dot, `""` if it has no dot. -/
def filepathExt (p : String) : String :=
  let rev := p.toList.reverse.takeWhile (fun c => c ≠ '/')
  match rev.findIdx? (fun c => c = '.') with
  | none => ""
  | some i => String.mk ((rev.take (i + 1)).reverse)

/-! ## Similarity engine -/

/-- `isCommonWord`: the fixed stop-word list. -/
def commonWords : List String :=
  ["the", "and", "for", "are", "but", "not", "you", "all", "can", "had",
   "her", "was", "one", "our", "out", "day", "get", "has", "him", "his",
   "how", "its", "new", "now", "old", "see", "two", "who", "boy", "did",
   "may", "put", "say", "she", "too", "use", "var", "nil", "err", "int"]

def isCommonWord (w : String) : Bool := commonWords.contains (toLowerStr w)

/-- One word of `extractKeywords`' inner loop: trim the cutset, keep words of
length > 3 that are not stop words, stored lowercased. -/
def keywordOfWord (w : String) : Option String :=
  let w' := strTrim w
  if 3 < w'.toList.length ∧ ¬ isCommonWord w' then some (toLowerStr w') else none

/-- Keywords contributed by one line of hunk content: only lines starting
with `+` or `-` are scanned, with the first `+` then `-` prefix stripped. -/
def lineKeywords (line : String) : List String :=
  if strStartsWith line "+" ∨ strStartsWith line "-" then
    (fields (trimPrefixStr (trimPrefixStr line "+") "-")).filterMap keywordOfWord
  else []

/-- `extractKeywords`: the keyword set of a hunk list (a Go `map[string]bool`,
modelled as a `Finset`). -/
def extractKeywords (hunks : List Hunk) : Finset String :=
  (hunks.flatMap (fun h => (h.Content.splitOn "\n").flatMap lineKeywords)).toFinset

/-- `calculateContentSimilarity`. -/
def calculateContentSimilarity (hunks1 hunks2 : List Hunk) : ℚ :=
  let k1 := extractKeywords hunks1
  let k2 := extractKeywords hunks2
  if k1.card = 0 ∨ k2.card = 0 then 0
  else ((k1 ∩ k2).card : ℚ) / ((max k1.card k2.card : ℕ) : ℚ)

/-- `calculateFunctionSimilarity`: the inner loop with `break` counts each
element of `funcs1` once iff it occurs in `funcs2`. -/
def calculateFunctionSimilarity (funcs1 funcs2 : List String) : ℚ :=
  if funcs1.length = 0 ∨ funcs2.length = 0 then 0
  else ((funcs1.countP (fun f => funcs2.contains f)) : ℚ) /
    ((max funcs1.length funcs2.length : ℕ) : ℚ)

/-- The body of `calculateFilePathSimilarity`'s double loop for one pair of
paths: the three rules checked in order; `0` means "no rule matched, keep
scanning". -/
def filePairScore (f1 f2 : String) : ℚ :=
  if f1 = f2 then 1
  else if filepathDir f1 = filepathDir f2 then 7/10
  else if strContains f1 (trimSuffixStr (filepathBase f2) (filepathExt f2)) ∨
          strContains f2 (trimSuffixStr (filepathBase f1) (filepathExt f1)) then 1/2
  else 0

/-- Inner loop over `files2` for a fixed `f1`: return on the first pair that
matches any rule. -/
def fileLoop2 (f1 : String) : List String → Option ℚ
  | [] => none
  | f2 :: rest =>
    let s := filePairScore f1 f2
    if s ≠ 0 then some s else fileLoop2 f1 rest

/-- Outer loop over `files1`. -/
def fileLoop1 : List String → List String → Option ℚ
  | [], _ => none
  | f1 :: rest, files2 =>
    match fileLoop2 f1 files2 with
    | some s => some s
    | none => fileLoop1 rest files2

/-- `calculateFilePathSimilarity`. -/
def calculateFilePathSimilarity (files1 files2 : List String) : ℚ :=
  if files1.length = 0 ∨ files2.length = 0 then 0
  else (fileLoop1 files1 files2).getD 0

/-- `calculateSimilarity`: weighted sum 0.3·file + 0.4·function + 0.3·content. -/
def calculateSimilarity (a b : Change) : ℚ :=
  calculateFilePathSimilarity a.Files b.Files * (3/10)
  + calculateFunctionSimilarity a.Functions b.Functions * (4/10)
  + calculateContentSimilarity a.Hunks b.Hunks * (3/10)

/-- `calculateSimilarities`, as a function of the two indices: the diagonal is
set to 1.0 and the matrix is filled symmetrically from the pairs `i < j`. -/
def calculateSimilarities (changes : List Change) (i j : Nat) : ℚ :=
  if i = j then 1
  else if i < j then
    calculateSimilarity (changes.getD i defaultChange) (changes.getD j defaultChange)
  else
    calculateSimilarity (changes.getD j defaultChange) (changes.getD i defaultChange)

/-! ## Greedy clustering (`performClustering`)

The Go code walks indices `0..n-1` with a `used` array: each still-unused
index `i` seeds a cluster, then every later unused `j` with
`similarities[i][j] >= threshold` is folded in and marked used.  Processing
the ascending list of unused indices is the same computation: the seed is the
head, the accepted indices are the later unused ones passing the threshold,
and the remaining unused indices are the ones failing it, in order. -/

/-- The greedy pass on the list of still-unused indices, with fuel (the list
length shrinks at every step, so `l.length` fuel always suffices): each
output pair is (seed index, accepted later indices). -/
def greedyAux (sims : Nat → Nat → ℚ) (th : ℚ) : Nat → List Nat → List (Nat × List Nat)
  | 0, _ => []
  | _ + 1, [] => []
  | fuel + 1, i :: rest =>
    (i, rest.filter (fun j => decide (th ≤ sims i j))) ::
      greedyAux sims th fuel (rest.filter (fun j => !decide (th ≤ sims i j)))

def greedyIndexClusters (sims : Nat → Nat → ℚ) (th : ℚ) (l : List Nat) :
    List (Nat × List Nat) :=
  greedyAux sims th l.length l

/-- The running score of `performClustering`: `cluster.Score` starts at 1.0
and is updated to `(cluster.Score + similarities[i][j]) / 2` for each
accepted `j`, in scan order. -/
def clusterScore (sims : Nat → Nat → ℚ) (i : Nat) (accepted : List Nat) : ℚ :=
  accepted.foldl (fun sc j => (sc + sims i j) / 2) 1

/-- `performClustering`. -/
def performClustering (changes : List Change) (sims : Nat → Nat → ℚ) (th : ℚ) :
    List Cluster :=
  (greedyIndexClusters sims th (List.range changes.length)).map (fun p =>
    { Changes := changes.getD p.1 defaultChange ::
        p.2.map (fun j => changes.getD j defaultChange)
      Score := clusterScore sims p.1 p.2 })

/-! ## Merge-down (`mergeClusters`) -/

/-- All index pairs `(i, j)` with `i < j < n` in the scan order of
`mergeClusters`' double loop (`i` ascending, then `j`). -/
def indexPairs (n : Nat) : List (Nat × Nat) :=
  (List.range n).flatMap (fun i =>
    ((List.range n).filter (fun j => decide (i < j))).map (fun j => (i, j)))

/-- Combined change count of a pair of clusters. -/
def pairSize (cs : List Cluster) (p : Nat × Nat) : Nat :=
  (cs.getD p.1 defaultCluster).Changes.length + (cs.getD p.2 defaultCluster).Changes.length

/-- The double loop choosing the two clusters with the smallest combined
change count: `minIdx1, minIdx2` start at `(0, 1)` and are replaced only on a
strictly smaller size, so ties keep the earliest pair in scan order.
(When `cs` has fewer than two clusters the Go code indexes out of range and
panics; all theorems below work under the spec's validated-configuration
assumption `1 ≤ maxClusters`, which keeps the cluster count here ≥ 2.) -/
def findMinPair (cs : List Cluster) : Nat × Nat :=
  (indexPairs cs.length).foldl
    (fun best p => if pairSize cs p < pairSize cs best then p else best) (0, 1)

/-- Rebuilding the cluster list without positions `i < j`: the Go loop keeps
every cluster whose index is neither, in order, which is erasing position `j`
and then position `i`. -/
def removeIdxPair (cs : List Cluster) (i j : Nat) : List Cluster :=
  (cs.eraseIdx j).eraseIdx i

/-- One iteration of `mergeClusters`' while-loop: merge the two smallest
clusters (concatenated changes, averaged scores) and append the merged
cluster at the end. -/
def mergeStep (cs : List Cluster) : List Cluster :=
  let p := findMinPair cs
  let merged : Cluster :=
    { Changes := (cs.getD p.1 defaultCluster).Changes ++ (cs.getD p.2 defaultCluster).Changes
      Score := ((cs.getD p.1 defaultCluster).Score + (cs.getD p.2 defaultCluster).Score) / 2 }
  removeIdxPair cs p.1 p.2 ++ [merged]

/-- The while-loop of `mergeClusters`, with fuel: `cs.length` iterations
always suffice since each one shortens the list by one. -/
def mergeClustersAux : Nat → List Cluster → Nat → List Cluster
  | 0, cs, _ => cs
  | fuel + 1, cs, maxClusters =>
    if cs.length ≤ maxClusters then cs
    else mergeClustersAux fuel (mergeStep cs) maxClusters

/-- `mergeClusters`. -/
def mergeClusters (cs : List Cluster) (maxClusters : Nat) : List Cluster :=
  if cs.length ≤ maxClusters then cs
  else mergeClustersAux cs.length cs maxClusters

/-- `ClusterChanges`: single catch-all cluster when multi-commit is disabled
or at most one change; otherwise greedy clustering followed by capping. -/
def ClusterChanges (cfg : MultiCommitConfig) (changes : List Change) : List Cluster :=
  if cfg.enabled = false ∨ changes.length ≤ 1 then [{ Changes := changes, Score := 1 }]
  else
    let clusters := performClustering changes (calculateSimilarities changes)
      cfg.similarityThreshold
    if cfg.maxClusters < clusters.length then mergeClusters clusters cfg.maxClusters
    else clusters

/-! ## Diff parsing (`parseDiffHunks`) -/

/-- Numeric value of a run of decimal digits (what `parseInt` via
`fmt.Sscanf("%d")` yields on the digit-run capture groups; integer overflow
of unrealistically long runs is not modelled). -/
def natOfDigits (ds : List Char) : Nat :=
  ds.foldl (fun n c => n * 10 + (c.toNat - '0'.toNat)) 0

/-- Try to match the hunk-header regexp
`@@ -(\d+),?\d* \+(\d+),?\d* @@` at the head of the character list,
returning the two captured groups.  The pattern is backtracking-free here:
`\d+` must take the maximal digit run (`,` and the following mandatory
space are not digits), so a deterministic scan is the regexp's semantics. -/
def matchHunkHeaderAt (cs : List Char) : Option (Nat × Nat) :=
  match cs with
  | '@' :: '@' :: ' ' :: '-' :: rest =>
    let d1 := rest.takeWhile Char.isDigit
    let r1 := rest.dropWhile Char.isDigit
    if d1 = [] then none
    else
      let r2 := if r1.head? = some ',' then r1.tail else r1
      let r3 := r2.dropWhile Char.isDigit
      match r3 with
      | ' ' :: '+' :: r4 =>
        let d2 := r4.takeWhile Char.isDigit
        let r5 := r4.dropWhile Char.isDigit
        if d2 = [] then none
        else
          let r6 := if r5.head? = some ',' then r5.tail else r5
          let r7 := r6.dropWhile Char.isDigit
          match r7 with
          | ' ' :: '@' :: '@' :: _ => some (natOfDigits d1, natOfDigits d2)
          | _ => none
      | _ => none
  | _ => none

/-- `regexp.FindStringSubmatch`: first position (left to right) where the
hunk-header pattern matches. -/
def findHunkHeader (line : String) : Option (Nat × Nat) :=
  go line.toList
where
  go : List Char → Option (Nat × Nat)
    | [] => none
    | c :: rest =>
      match matchHunkHeaderAt (c :: rest) with
      | some r => some r
      | none => go rest

/-- The hunk-type update of `parseDiffHunks`' content branch. -/
def updateHunkType (t : String) (line : String) : String :=
  if strStartsWith line "+" then
    if t = "" then "add" else if t = "remove" then "modify" else t
  else if strStartsWith line "-" then
    if t = "" then "remove" else if t = "add" then "modify" else t
  else t

/-- Parser state: the current file, the open hunk (Go: `*Hunk`, `nil` when
none), and the hunks emitted so far. -/
structure ParseState where
  currentFile : String
  currentHunk : Option Hunk
  hunks : List Hunk
  deriving DecidableEq, Repr

/-- One line of `parseDiffHunks`' loop.  On a line starting `@@` the open
hunk is flushed; if the header regexp matches, a fresh hunk is opened,
otherwise `currentHunk` is left as it was — exactly the Go behaviour, where
the already-appended hunk keeps accumulating content through the stale
pointer and is appended again at the next flush. -/
def parseStep (st : ParseState) (line : String) : ParseState :=
  if strStartsWith line "+++ b/" then
    { st with currentFile := trimPrefixStr line "+++ b/" }
  else if strStartsWith line "@@" then
    let flushed := match st.currentHunk with
      | some h => st.hunks ++ [h]
      | none => st.hunks
    match findHunkHeader line with
    | some g =>
      { st with hunks := flushed
                currentHunk := some ⟨st.currentFile, g.2, 0, "", ""⟩ }
    | none => { st with hunks := flushed }
  else
    match st.currentHunk with
    | some h =>
      if strStartsWith line "+" ∨ strStartsWith line "-" ∨ strStartsWith line " " then
        { st with currentHunk := some { h with
            Content := h.Content ++ line ++ "\n"
            «Type» := updateHunkType h.«Type» line } }
      else st
    | none => st

/-- `parseDiffHunks`. -/
def parseDiffHunks (diff : String) : List Hunk :=
  let final := (diff.splitOn "\n").foldl parseStep ⟨"", none, []⟩
  match final.currentHunk with
  | some h => final.hunks ++ [h]
  | none => final.hunks

/-- Number of lines of the input on which the hunk-header regexp actually
matches (well-formed hunk headers). -/
def validHunkHeaderCount (diff : String) : Nat :=
  (diff.splitOn "\n").countP (fun line => (findHunkHeader line).isSome)

/-! ## Multi-commit orchestration (`ExecuteMultiCommit`, `createCommit`)

The orchestrator's side effects are calls to external `git` commands
(`restoreChanges`, `git reset`, `git add`/`git rm`, `git diff --cached
--quiet`, `git commit`, `stashCurrentChanges`).  Following the spec's own
design note (§9: "abstract it behind an injected repository-port capability
set ... testable against an in-memory fake"), each primitive is modelled as
an oracle mapping its invocation count to success or failure, and a `Trace`
records every call.  Normal-path `restoreChanges` calls (at the top of
`createCommit`) and the single abort-path call in `ExecuteMultiCommit`'s
failure branch are tagged by call site in the trace. -/

/-- `splitter.CommitProposal`. -/
structure CommitProposal where
  Files : List String
  Message : String
  Changes : List Change
  deriving DecidableEq, Repr

/-- Outcome of each external git primitive, by invocation count. -/
structure GitOracle where
  restoreOk : Nat → Bool
  resetOk : Nat → Bool
  /-- Result of the `git diff --cached --quiet` check: `true` means the exit
  status was non-zero, i.e. something is staged. -/
  stagedNonEmpty : Nat → Bool
  commitOk : Nat → Bool
  stashOk : Nat → Bool
  /-- Reply to `promptUserForConfirmation`. -/
  userConfirms : Bool

/-- Trace of external calls made during a run. -/
@[ext]
structure Trace where
  restoreCalls : Nat
  abortRestoreCalls : Nat
  resetCalls : Nat
  stageCalls : Nat
  checkCalls : Nat
  commitCalls : Nat
  commitsCreated : Nat
  stashCalls : Nat
  /-- 1-based indices of the proposals handed to `createCommit`, in order. -/
  attempted : List Nat
  deriving DecidableEq, Repr

/-- `createCommit(proposal, index, total)`: restore, reset, stage each file
(failures only warn and skip), skip the proposal when nothing is staged,
commit, and re-stash when proposals remain.  Returns the error message, if
any, and the updated trace. -/
def createCommit (o : GitOracle) (p : CommitProposal) (index total : Nat) (t : Trace) :
    Option String × Trace :=
  if o.restoreOk t.restoreCalls = false then
    (some "failed to restore changes", { t with restoreCalls := t.restoreCalls + 1 })
  else
    let t1 := { t with restoreCalls := t.restoreCalls + 1 }
    if o.resetOk t1.resetCalls = false then
      (some "failed to reset staging area", { t1 with resetCalls := t1.resetCalls + 1 })
    else
      let t2 := { t1 with resetCalls := t1.resetCalls + 1,
                          stageCalls := t1.stageCalls + p.Files.length }
      let staged := o.stagedNonEmpty t2.checkCalls
      let t3 := { t2 with checkCalls := t2.checkCalls + 1 }
      if staged = false then
        (none, t3)
      else if o.commitOk t3.commitCalls = false then
        (some "git commit failed", { t3 with commitCalls := t3.commitCalls + 1 })
      else
        let t4 := { t3 with commitCalls := t3.commitCalls + 1,
                            commitsCreated := t3.commitsCreated + 1 }
        if index < total then
          if o.stashOk t4.stashCalls = false then
            (some "failed to stash remaining changes",
             { t4 with stashCalls := t4.stashCalls + 1 })
          else (none, { t4 with stashCalls := t4.stashCalls + 1 })
        else (none, t4)

/-- The error returned by `ExecuteMultiCommit`:
`commitFailed i cause` models Go's
`fmt.Errorf("failed to create commit %d: %v", i, err)` — the error value
identifies the 1-based failing proposal index and the underlying cause. -/
inductive MCError where
  | stashFailed (cause : String)
  | commitFailed (index : Nat) (cause : String)
  deriving DecidableEq, Repr

/-- The proposal loop of `ExecuteMultiCommit`: on any `createCommit` failure,
perform one best-effort `restoreChanges` (the abort-path call) and stop with
an error naming the failing proposal's index. -/
def execLoop (o : GitOracle) (ps : List CommitProposal) (i total : Nat) (t : Trace) :
    Option MCError × Trace :=
  match ps with
  | [] => (none, t)
  | p :: rest =>
    let t0 := { t with attempted := t.attempted ++ [i + 1] }
    match createCommit o p (i + 1) total t0 with
    | (some e, t1) =>
      (some (.commitFailed (i + 1) e),
       { t1 with restoreCalls := t1.restoreCalls + 1
                 abortRestoreCalls := t1.abortRestoreCalls + 1 })
    | (none, t1) => execLoop o rest (i + 1) total t1

def emptyTrace : Trace := ⟨0, 0, 0, 0, 0, 0, 0, 0, []⟩

/-- `ExecuteMultiCommit`. -/
def ExecuteMultiCommit (o : GitOracle) (promptUser : Bool) (ps : List CommitProposal) :
    Option MCError × Trace :=
  if ps.length ≤ 1 then (none, emptyTrace)
  else if promptUser = true ∧ o.userConfirms = false then (none, emptyTrace)
  else if o.stashOk emptyTrace.stashCalls = false then
    (some (.stashFailed "failed to stash changes"), { emptyTrace with stashCalls := 1 })
  else execLoop o ps 0 ps.length { emptyTrace with stashCalls := 1 }

/-! ## Definitions taken from the specification's words

These two definitions follow the spec's sentences (not the code) and exist
only to be compared against the implemented behaviour. -/

/-- Modelled from the spec's words (§4.4): "the cluster's running score is
the mean of all accepted pairwise scores against the seed" — the arithmetic
mean of `similarities[i][j]` over the accepted indices `js`. -/
def specMeanScore (sims : Nat → Nat → ℚ) (i : Nat) (js : List Nat) : ℚ :=
  ((js.map (sims i)).sum) / (js.length : ℚ)

/-- Modelled from the spec's words (§4.3 fileScore): "across all file-path
pairs between a and b, take the best match under these rules, evaluated in
order: 1.0 if any path is identical; else 0.7 if any pair shares a parent
directory; else 0.5 if either file's base name (extension stripped) appears
as a substring of the other's; else 0.0." -/
def specFileScore (files1 files2 : List String) : ℚ :=
  if files1.any (fun f1 => files2.any (fun f2 => decide (f1 = f2))) then 1
  else if files1.any (fun f1 => files2.any (fun f2 =>
    decide (filepathDir f1 = filepathDir f2))) then 7/10
  else if files1.any (fun f1 => files2.any (fun f2 =>
    strContains f1 (trimSuffixStr (filepathBase f2) (filepathExt f2)) ||
    strContains f2 (trimSuffixStr (filepathBase f1) (filepathExt f1)))) then 1/2
  else 0

/-! ## Concrete inputs used by witnesses and counterexamples -/

def pathChangeDX : Change := ⟨["d/x.go"], [], []⟩

def pathChangeDY : Change := ⟨["d/y.go"], [], []⟩

/-- A Change with a file but no extracted functions and no hunks. -/
def noFuncChange : Change := ⟨["a.go"], [], []⟩

/-- A hunk whose added line contributes the keyword "processdata". -/
def keywordHunk : Hunk := ⟨"a.go", 1, 0, "+processData\n", "add"⟩

/-- A Change with non-empty files, functions and keyword set. -/
def fullChange : Change := ⟨["a.go"], ["foo"], [keywordHunk]⟩

def sharedPathChangeA : Change := ⟨["x.go"], ["foo"], [⟨"x.go", 1, 0, "+processData\n", "add"⟩]⟩

def sharedPathChangeB : Change :=
  ⟨["x.go", "y.go"], ["foo"], [⟨"x.go", 1, 0, "+processData\n", "add"⟩]⟩

def multiPathChangeA : Change := ⟨["p/u.go", "r/v.go"], [], []⟩

def multiPathChangeB : Change := ⟨["r/w.go", "s/u.txt"], [], []⟩

/-- A staged diff with one well-formed hunk header followed, inside the open
hunk, by a line that begins `@@` but fails the header regexp. -/
def malformedDiff : String := "+++ b/a.go\n@@ -1,2 +3,4 @@\n+x\n@@ bad @@\n+y\n"

/-! ## C10: catch-all cluster when disabled or at most one change -/

/-- C10: when multi-commit is disabled or the input has at most one Change,
`ClusterChanges` returns exactly one Cluster holding the whole input with
Score 1.0, for every threshold and maximum-cluster setting; in particular an
empty input yields one Cluster with an empty Change list. -/
theorem ClusterChanges_single_cluster (cfg : MultiCommitConfig) (changes : List Change)
    (h : cfg.enabled = false ∨ changes.length ≤ 1) :
    ClusterChanges cfg changes = [{ Changes := changes, Score := 1 }] := by
  unfold ClusterChanges
  rw [if_pos h]

/-- Witness for C10 at a concrete configuration and the empty input. -/
theorem ClusterChanges_single_cluster_witness :
    ClusterChanges ⟨false, 3, 7/10, true⟩ [] = [{ Changes := [], Score := 1 }] :=
  ClusterChanges_single_cluster ⟨false, 3, 7/10, true⟩ [] (Or.inl rfl)

/-! ## Counterexamples to the claims the code does not satisfy -/

/-- C4 (counterexample): at `files1 = ["d/x.go", "e/p.go"]`,
`files2 = ["d/y.go", "e/p.go"]` the implementation returns 0.7 — the first
scanned pair shares the directory `d` — although the identical pair
`("e/p.go", "e/p.go")` exists, so the spec's best-match value is 1.0.  The
fileScore is decided by the first matching pair, not the best one. -/
theorem calculateFilePathSimilarity_not_best_match :
    calculateFilePathSimilarity ["d/x.go", "e/p.go"] ["d/y.go", "e/p.go"] = 7/10 ∧
    specFileScore ["d/x.go", "e/p.go"] ["d/y.go", "e/p.go"] = 1 ∧
    calculateFilePathSimilarity ["d/x.go", "e/p.go"] ["d/y.go", "e/p.go"] ≠
      specFileScore ["d/x.go", "e/p.go"] ["d/y.go", "e/p.go"] := by
  with_unfolding_all decide

/-- C5 (counterexample): for a Change with a file path but no extracted
functions and no hunks, `similarity(a, a)` is 0.3, not 1.0: the function and
content sub-scores return 0 on empty sets even for identical arguments. -/
theorem calculateSimilarity_self_not_one :
    calculateSimilarity noFuncChange noFuncChange = 3/10 ∧
    calculateSimilarity noFuncChange noFuncChange ≠ 1 := by with_unfolding_all decide

/-- C6 (counterexample): with two file paths on each side, `similarity` is
not symmetric: scanning a's files against b's finds the substring pair
`("p/u.go", "s/u.txt")` first (0.5), while scanning b's against a's finds
the same-directory pair `("r/w.go", "r/v.go")` first (0.7). -/
theorem calculateSimilarity_not_symmetric :
    calculateSimilarity multiPathChangeA multiPathChangeB = 3/20 ∧
    calculateSimilarity multiPathChangeB multiPathChangeA = 21/100 ∧
    calculateSimilarity multiPathChangeA multiPathChangeB ≠
      calculateSimilarity multiPathChangeB multiPathChangeA := by
  with_unfolding_all decide

/-- C7 (counterexample): two distinct Changes that share a file path and
have identical functions and hunk content reach similarity exactly 1.0, so
at threshold 1.0 they are folded into a single cluster: clustering does not
yield one cluster per distinct Change. -/
theorem threshold_one_groups_distinct_changes :
    sharedPathChangeA ≠ sharedPathChangeB ∧
    (performClustering [sharedPathChangeA, sharedPathChangeB]
      (calculateSimilarities [sharedPathChangeA, sharedPathChangeB]) 1).length = 1 := by
  with_unfolding_all decide

/-- C3 (counterexample): one accepted change with pairwise score 21/100 at
threshold 1/5 produces cluster score `(1 + 21/100)/2 = 121/200`, while the
arithmetic mean of the accepted pairwise scores is 21/100. -/
theorem performClustering_score_not_mean :
    performClustering [pathChangeDX, pathChangeDY]
        (calculateSimilarities [pathChangeDX, pathChangeDY]) (1/5) =
      [{ Changes := [pathChangeDX, pathChangeDY], Score := 121/200 }] ∧
    specMeanScore (calculateSimilarities [pathChangeDX, pathChangeDY]) 0 [1] = 21/100 ∧
    (121/200 : ℚ) ≠ 21/100 := by with_unfolding_all decide

/-- C9 (counterexample): a malformed hunk header inside an open hunk makes
the parser emit the open hunk twice — once as of the malformed header and
once extended with the lines that follow it — so the input's single
well-formed header yields two hunks sharing the line `+x`, not "fewer
recovered Hunks" and not a duplicate-free sequence. -/
theorem parseDiffHunks_duplicates_on_malformed_header :
    parseDiffHunks malformedDiff =
      [⟨"a.go", 3, 0, "+x\n", "add"⟩, ⟨"a.go", 3, 0, "+x\n+y\n", "add"⟩] ∧
    validHunkHeaderCount malformedDiff = 1 := by with_unfolding_all decide

/-! ## C5: reflexivity of the similarity score -/

theorem filePairScore_self (f : String) : filePairScore f f = 1 := by
  simp [filePairScore]

/-- On a non-empty file list, the very first pair compared is `(f, f)`,
which matches the identical-path rule. -/
theorem calculateFilePathSimilarity_self (files : List String) (h : files ≠ []) :
    calculateFilePathSimilarity files files = 1 := by
  obtain ⟨f, rest, rfl⟩ := List.exists_cons_of_ne_nil h
  simp [calculateFilePathSimilarity, fileLoop1, fileLoop2, filePairScore_self]

theorem calculateFunctionSimilarity_self (fs : List String) (h : fs ≠ []) :
    calculateFunctionSimilarity fs fs = 1 := by
  have hlen : fs.length ≠ 0 := by simpa using h
  have hcount : fs.countP (fun f => fs.contains f) = fs.length := by
    rw [List.countP_eq_length]
    intro a ha
    simpa using ha
  rw [calculateFunctionSimilarity, if_neg (by simp [hlen]), hcount, Nat.max_self]
  exact div_self (Nat.cast_ne_zero.mpr hlen)

theorem calculateContentSimilarity_self (hunks : List Hunk)
    (h : (extractKeywords hunks).card ≠ 0) :
    calculateContentSimilarity hunks hunks = 1 := by
  rw [calculateContentSimilarity]
  simp only [Finset.inter_self, Nat.max_self]
  rw [if_neg (by simp [h])]
  exact div_self (Nat.cast_ne_zero.mpr h)

/-- C5 (amended): `similarity(a, a) = 1.0` holds exactly on the Changes whose
file list, function list and extracted keyword set are all non-empty; when
any of the three is empty the corresponding sub-score is 0 even between
identical arguments and `similarity(a, a) < 1` (see the counterexample
`calculateSimilarity_self_not_one`). -/
theorem calculateSimilarity_self (a : Change) (hf : a.Files ≠ [])
    (hfn : a.Functions ≠ []) (hk : (extractKeywords a.Hunks).card ≠ 0) :
    calculateSimilarity a a = 1 := by
  rw [calculateSimilarity, calculateFilePathSimilarity_self _ hf,
    calculateFunctionSimilarity_self _ hfn, calculateContentSimilarity_self _ hk]
  norm_num

/-- Witness for C5 (amended) on a concrete Change with a file, a function
and a keyword. -/
theorem calculateSimilarity_self_witness : calculateSimilarity fullChange fullChange = 1 :=
  calculateSimilarity_self fullChange (by decide) (by decide)
    (by with_unfolding_all decide)

/-! ## C6: symmetry of the similarity score -/

theorem filePairScore_comm (f1 f2 : String) : filePairScore f1 f2 = filePairScore f2 f1 := by
  unfold filePairScore
  by_cases h1 : f1 = f2
  · subst h1; rfl
  · have h1' : ¬f2 = f1 := fun h => h1 h.symm
    rw [if_neg h1, if_neg h1']
    by_cases h2 : filepathDir f1 = filepathDir f2
    · rw [if_pos h2, if_pos h2.symm]
    · have h2' : ¬filepathDir f2 = filepathDir f1 := fun h => h2 h.symm
      rw [if_neg h2, if_neg h2']
      by_cases h3 : strContains f1 (trimSuffixStr (filepathBase f2) (filepathExt f2)) = true ∨
          strContains f2 (trimSuffixStr (filepathBase f1) (filepathExt f1)) = true
      · rw [if_pos h3, if_pos h3.symm]
      · have h3' : ¬(strContains f2 (trimSuffixStr (filepathBase f1) (filepathExt f1)) = true ∨
            strContains f1 (trimSuffixStr (filepathBase f2) (filepathExt f2)) = true) :=
          fun h => h3 h.symm
        rw [if_neg h3, if_neg h3']

/-- With at most one file on each side the double loop degenerates to a
single symmetric pair comparison. -/
theorem calculateFilePathSimilarity_comm_single (files1 files2 : List String)
    (h1 : files1.length ≤ 1) (h2 : files2.length ≤ 1) :
    calculateFilePathSimilarity files1 files2 = calculateFilePathSimilarity files2 files1 := by
  match files1, files2 with
  | [], [] => rfl
  | [], _ :: _ => simp [calculateFilePathSimilarity]
  | _ :: _, [] => simp [calculateFilePathSimilarity]
  | f1 :: t1, f2 :: t2 =>
    have ht1 : t1 = [] := by
      cases t1 with
      | nil => rfl
      | cons x xs => simp at h1
    have ht2 : t2 = [] := by
      cases t2 with
      | nil => rfl
      | cons x xs => simp at h2
    subst ht1; subst ht2
    simp only [calculateFilePathSimilarity, fileLoop1, fileLoop2, filePairScore_comm f1 f2]
    simp

/-- With duplicate-free function lists, the asymmetric membership count is
the cardinality of the set intersection. -/
theorem countP_contains_eq_card_inter (l1 l2 : List String) (h1 : l1.Nodup) :
    l1.countP (fun f => l2.contains f) = (l1.toFinset ∩ l2.toFinset).card := by
  rw [List.countP_eq_length_filter, ← List.toFinset_card_of_nodup (h1.filter _),
    List.toFinset_filter]
  congr 1
  ext a
  simp [List.mem_filter]

theorem calculateFunctionSimilarity_comm (fs1 fs2 : List String)
    (h1 : fs1.Nodup) (h2 : fs2.Nodup) :
    calculateFunctionSimilarity fs1 fs2 = calculateFunctionSimilarity fs2 fs1 := by
  unfold calculateFunctionSimilarity
  by_cases hz : fs1.length = 0 ∨ fs2.length = 0
  · rw [if_pos hz, if_pos hz.symm]
  · rw [if_neg hz, if_neg (fun h => hz h.symm),
      countP_contains_eq_card_inter fs1 fs2 h1, countP_contains_eq_card_inter fs2 fs1 h2,
      Finset.inter_comm, Nat.max_comm]

/-- The content score is symmetric outright: it only consumes the
cardinalities of the two keyword sets and of their intersection. -/
theorem calculateContentSimilarity_comm (hs1 hs2 : List Hunk) :
    calculateContentSimilarity hs1 hs2 = calculateContentSimilarity hs2 hs1 := by
  unfold calculateContentSimilarity
  by_cases hz : (extractKeywords hs1).card = 0 ∨ (extractKeywords hs2).card = 0
  · rw [if_pos hz, if_pos hz.symm]
  · rw [if_neg hz, if_neg (fun h => hz h.symm), Finset.inter_comm, Nat.max_comm]

/-- C6 (amended): `similarity` is symmetric on Changes with at most one file
path each and duplicate-free function lists (the shape the pipeline itself
produces: one Change per file, `unique`d function names).  With two or more
paths on a side it is not symmetric — see the counterexample
`calculateSimilarity_not_symmetric`. -/
theorem calculateSimilarity_comm (a b : Change)
    (ha : a.Files.length ≤ 1) (hb : b.Files.length ≤ 1)
    (hna : a.Functions.Nodup) (hnb : b.Functions.Nodup) :
    calculateSimilarity a b = calculateSimilarity b a := by
  unfold calculateSimilarity
  rw [calculateFilePathSimilarity_comm_single _ _ ha hb,
    calculateFunctionSimilarity_comm _ _ hna hnb,
    calculateContentSimilarity_comm]

/-- Witness for C6 (amended) on two concrete single-file Changes. -/
theorem calculateSimilarity_comm_witness :
    calculateSimilarity fullChange pathChangeDX = calculateSimilarity pathChangeDX fullChange :=
  calculateSimilarity_comm fullChange pathChangeDX (by decide) (by decide)
    (by decide) (by decide)

/-! ## C4: the fileScore is first-match, not best-match -/

theorem fileLoop2_eq_find? (f1 : String) (files2 : List String) :
    fileLoop2 f1 files2 = (files2.map (filePairScore f1)).find? (fun s => decide (s ≠ 0)) := by
  induction files2 with
  | nil => rfl
  | cons f2 rest ih =>
    rw [fileLoop2, List.map_cons]
    by_cases h : filePairScore f1 f2 ≠ 0
    · rw [if_pos h, List.find?_cons_of_pos _ (by simpa using h)]
    · rw [if_neg h, List.find?_cons_of_neg _ (by simpa using h), ih]

theorem fileLoop1_eq_find? (files1 files2 : List String) :
    fileLoop1 files1 files2 =
      (files1.flatMap (fun f1 => files2.map (filePairScore f1))).find?
        (fun s => decide (s ≠ 0)) := by
  induction files1 with
  | nil => rfl
  | cons f1 rest ih =>
    rw [fileLoop1, List.flatMap_cons, List.find?_append, fileLoop2_eq_find?, ih]
    cases (files2.map (filePairScore f1)).find? (fun s => decide (s ≠ 0)) <;> rfl

/-- C4 (amended): `calculateFilePathSimilarity` is the score of the *first*
file-path pair, in iteration order (`a`'s files outer, `b`'s files inner),
that matches any of the three rules — each pair being scored by the first
rule it satisfies (1.0 identical, 0.7 same directory, 0.5 base-name
substring) — and 0.0 when no pair matches.  It is not the best match over
all pairs: see `calculateFilePathSimilarity_not_best_match`. -/
theorem calculateFilePathSimilarity_first_match (files1 files2 : List String) :
    calculateFilePathSimilarity files1 files2 =
      ((files1.flatMap (fun f1 => files2.map (filePairScore f1))).find?
        (fun s => decide (s ≠ 0))).getD 0 := by
  unfold calculateFilePathSimilarity
  by_cases h : files1.length = 0 ∨ files2.length = 0
  · rw [if_pos h]
    rcases h with h | h
    · rw [List.length_eq_zero.mp h]; rfl
    · rw [List.length_eq_zero.mp h]
      have hnil : (files1.flatMap fun f1 => List.map (filePairScore f1) ([] : List String)) = [] :=
        List.flatMap_eq_nil_iff.mpr (fun x _ => rfl)
      rw [hnil]
      rfl
  · rw [if_neg h, fileLoop1_eq_find?]

/-! ## C3: the cluster score is a running average, not a mean -/

/-- `expWeightedSum [s_0, …, s_{m-1}] = Σ_t 2^t · s_t`, written recursively. -/
def expWeightedSum : List ℚ → ℚ
  | [] => 0
  | s :: l => s + 2 * expWeightedSum l

/-- Closed form of the running pairwise average: folding
`sc ← (sc + s) / 2` over a list starting from `a` gives
`(a + Σ_t 2^t s_t) / 2^m`. -/
theorem foldl_half_avg (l : List ℚ) (a : ℚ) :
    l.foldl (fun sc s => (sc + s) / 2) a = (a + expWeightedSum l) / 2 ^ l.length := by
  induction l generalizing a with
  | nil => simp [expWeightedSum]
  | cons s l ih =>
    rw [List.foldl_cons, ih, expWeightedSum, List.length_cons, pow_succ]
    have h2 : ((2 : ℚ) ^ l.length) ≠ 0 := by positivity
    field_simp
    ring

/-- C3 (amended): every cluster of the greedy pass comes from a seed `i` and
accepted indices `js`, its Changes are the seed's change followed by the
accepted ones, and its Score is the running pairwise average seeded at 1.0 —
`Score ← (Score + similarities[i][j]) / 2` per accepted `j` — with closed
form `(1 + Σ_t 2^t·s_t) / 2^m`; this is not the arithmetic mean of the
accepted scores (see `performClustering_score_not_mean`). -/
theorem performClustering_score_closed_form (changes : List Change)
    (sims : Nat → Nat → ℚ) (th : ℚ) (c : Cluster)
    (hc : c ∈ performClustering changes sims th) :
    ∃ p ∈ greedyIndexClusters sims th (List.range changes.length),
      c.Changes = changes.getD p.1 defaultChange ::
        p.2.map (fun j => changes.getD j defaultChange) ∧
      c.Score = (1 + expWeightedSum (p.2.map (sims p.1))) / 2 ^ p.2.length := by
  rcases List.mem_map.mp hc with ⟨p, hp, rfl⟩
  refine ⟨p, hp, rfl, ?_⟩
  show clusterScore sims p.1 p.2 = _
  rw [clusterScore, ← List.foldl_map (sims p.1) (fun sc s => (sc + s) / 2), foldl_half_avg,
    List.length_map]

/-- Witness for C3 (amended) at the concrete two-change input: the single
cluster has seed 0, accepted [1], and Score `(1 + 21/100)/2 = 121/200`. -/
theorem performClustering_score_closed_form_witness :
    ∃ p ∈ greedyIndexClusters
        (calculateSimilarities [pathChangeDX, pathChangeDY]) (1/5)
        (List.range [pathChangeDX, pathChangeDY].length),
      (Cluster.mk [pathChangeDX, pathChangeDY] (121/200)).Changes =
        [pathChangeDX, pathChangeDY].getD p.1 defaultChange ::
          p.2.map (fun j => [pathChangeDX, pathChangeDY].getD j defaultChange) ∧
      (Cluster.mk [pathChangeDX, pathChangeDY] (121/200)).Score =
        (1 + expWeightedSum (p.2.map (calculateSimilarities [pathChangeDX, pathChangeDY] p.1))) /
          2 ^ p.2.length :=
  performClustering_score_closed_form [pathChangeDX, pathChangeDY]
    (calculateSimilarities [pathChangeDX, pathChangeDY]) (1/5)
    (Cluster.mk [pathChangeDX, pathChangeDY] (121/200))
    (by with_unfolding_all decide)

/-! ## C9 (amended): behaviour of the parser at a malformed hunk header -/

/-- C9 (amended): a line that begins `@@` but fails the hunk-location regexp
never opens a new Hunk and never touches the current file; it only flushes
the currently open Hunk into the output — while leaving it open, so that it
keeps accumulating subsequent lines and is emitted again at the next flush
(the duplication exhibited by `parseDiffHunks_duplicates_on_malformed_header`).
Parsing itself is a total function: no input is fatal. -/
theorem parseStep_malformed_header (st : ParseState) (line : String)
    (hpre : strStartsWith line "@@" = true) (hbad : findHunkHeader line = none) :
    parseStep st line = { st with hunks := st.hunks ++ st.currentHunk.toList } := by
  have hnotfile : strStartsWith line "+++ b/" = false := by
    rcases hchars : line.toList with _ | ⟨c, rest⟩
    · rw [strStartsWith, hchars] at hpre
      simp [List.isPrefixOf] at hpre
    · rw [strStartsWith, hchars] at hpre ⊢
      simp only [List.isPrefixOf, Bool.and_eq_true, beq_iff_eq] at hpre ⊢
      simp [← hpre.1]
  rw [parseStep, hnotfile]
  simp only [Bool.false_eq_true, if_false, hpre, if_true, hbad]
  cases st.currentHunk <;> simp [Option.toList]

/-- Witness for C9 (amended) at a concrete open-hunk state and the malformed
header line `"@@ bad @@"`. -/
theorem parseStep_malformed_header_witness :
    parseStep ⟨"a.go", some keywordHunk, []⟩ "@@ bad @@" =
      { ParseState.mk "a.go" (some keywordHunk) [] with
        hunks := [] ++ (some keywordHunk).toList } :=
  parseStep_malformed_header ⟨"a.go", some keywordHunk, []⟩ "@@ bad @@"
    (by decide) (by decide)

/-! ## C7: threshold 1.0 separates Changes that share no file path -/

theorem calculateFunctionSimilarity_le_one (f1 f2 : List String) :
    calculateFunctionSimilarity f1 f2 ≤ 1 := by
  rw [calculateFunctionSimilarity]
  split
  · norm_num
  · next h =>
    push_neg at h
    obtain ⟨h1, _⟩ := h
    have hpos : (0 : ℚ) < ((max f1.length f2.length : ℕ) : ℚ) := by
      exact_mod_cast lt_of_lt_of_le (Nat.pos_of_ne_zero h1) (le_max_left _ _)
    rw [div_le_one hpos]
    exact_mod_cast le_trans (List.countP_le_length _) (le_max_left _ _)

theorem calculateContentSimilarity_le_one (h1 h2 : List Hunk) :
    calculateContentSimilarity h1 h2 ≤ 1 := by
  simp only [calculateContentSimilarity]
  split
  · norm_num
  · next h =>
    push_neg at h
    obtain ⟨hk1, _⟩ := h
    have hpos : (0 : ℚ) <
        ((max (extractKeywords h1).card (extractKeywords h2).card : ℕ) : ℚ) := by
      exact_mod_cast lt_of_lt_of_le (Nat.pos_of_ne_zero hk1) (le_max_left _ _)
    rw [div_le_one hpos]
    exact_mod_cast le_trans (Finset.card_le_card Finset.inter_subset_left) (le_max_left _ _)

theorem fileLoop2_mem {f1 : String} : ∀ {files2 : List String} {s : ℚ},
    fileLoop2 f1 files2 = some s → ∃ f2 ∈ files2, s = filePairScore f1 f2 := by
  intro files2
  induction files2 with
  | nil => intro s h; simp [fileLoop2] at h
  | cons f2 rest ih =>
    intro s h
    rw [fileLoop2] at h
    by_cases hnz : filePairScore f1 f2 ≠ 0
    · rw [if_pos hnz] at h
      exact ⟨f2, List.mem_cons_self _ _, (Option.some_inj.mp h).symm⟩
    · rw [if_neg hnz] at h
      obtain ⟨g, hg, rfl⟩ := ih h
      exact ⟨g, List.mem_cons_of_mem _ hg, rfl⟩

theorem fileLoop1_mem : ∀ {files1 files2 : List String} {s : ℚ},
    fileLoop1 files1 files2 = some s →
    ∃ f1 ∈ files1, ∃ f2 ∈ files2, s = filePairScore f1 f2 := by
  intro files1
  induction files1 with
  | nil => intro files2 s h; simp [fileLoop1] at h
  | cons f1 rest ih =>
    intro files2 s h
    rw [fileLoop1] at h
    cases hfl : fileLoop2 f1 files2 with
    | some s' =>
      rw [hfl] at h
      obtain ⟨f2, hf2, rfl⟩ := fileLoop2_mem hfl
      exact ⟨f1, List.mem_cons_self _ _, f2, hf2, Option.some_inj.mp h.symm⟩
    | none =>
      rw [hfl] at h
      obtain ⟨g1, hg1, g2, hg2, rfl⟩ := ih h
      exact ⟨g1, List.mem_cons_of_mem _ hg1, g2, hg2, rfl⟩

/-- A pair of distinct paths never reaches the identical-path rule, so its
pair score is at most 0.7. -/
theorem filePairScore_le_of_ne (f1 f2 : String) (h : f1 ≠ f2) :
    filePairScore f1 f2 ≤ 7/10 := by
  rw [filePairScore, if_neg h]
  split
  · norm_num
  · split <;> norm_num

theorem calculateFilePathSimilarity_le_of_disjoint (files1 files2 : List String)
    (h : ∀ f ∈ files1, f ∉ files2) :
    calculateFilePathSimilarity files1 files2 ≤ 7/10 := by
  rw [calculateFilePathSimilarity]
  split
  · norm_num
  · cases hfl : fileLoop1 files1 files2 with
    | none => norm_num [Option.getD]
    | some s =>
      simp only [Option.getD_some]
      obtain ⟨f1, hf1, f2, hf2, rfl⟩ := fileLoop1_mem hfl
      exact filePairScore_le_of_ne f1 f2 (fun he => h f1 hf1 (he ▸ hf2))

/-- Changes with no shared file path have similarity at most 0.91 < 1. -/
theorem calculateSimilarity_lt_one (a b : Change) (h : ∀ f ∈ a.Files, f ∉ b.Files) :
    calculateSimilarity a b < 1 := by
  have h1 := calculateFilePathSimilarity_le_of_disjoint a.Files b.Files h
  have h2 := calculateFunctionSimilarity_le_one a.Functions b.Functions
  have h3 := calculateContentSimilarity_le_one a.Hunks b.Hunks
  rw [calculateSimilarity]
  linarith

theorem getD_eq_getElem_of_lt (l : List α) (d : α) (i : Nat) (h : i < l.length) :
    l.getD i d = l[i] := by
  rw [List.getD_eq_getElem?_getD, List.getElem?_eq_getElem h, Option.getD_some]

/-- When every pairwise score on the still-unused index list is below the
threshold, the greedy pass makes every cluster a singleton. -/
theorem greedyAux_singletons (sims : Nat → Nat → ℚ) (th : ℚ) :
    ∀ (fuel : Nat) (l : List Nat), l.length ≤ fuel → l.Pairwise (· < ·) →
      (∀ i ∈ l, ∀ j ∈ l, i < j → sims i j < th) →
      greedyAux sims th fuel l = l.map (fun i => (i, ([] : List Nat))) := by
  intro fuel
  induction fuel with
  | zero =>
    intro l hf _ _
    obtain rfl := List.length_eq_zero.mp (Nat.le_zero.mp hf)
    rfl
  | succ fuel ih =>
    intro l hf hs hlt
    cases l with
    | nil => rfl
    | cons i rest =>
      obtain ⟨hhead, htail⟩ := List.pairwise_cons.mp hs
      have hacc : rest.filter (fun j => decide (th ≤ sims i j)) = [] := by
        rw [List.filter_eq_nil_iff]
        intro j hj
        simpa using not_le.mpr (hlt i (List.mem_cons_self i rest) j
          (List.mem_cons_of_mem i hj) (hhead j hj))
      have hrem : rest.filter (fun j => !decide (th ≤ sims i j)) = rest := by
        rw [List.filter_eq_self]
        intro j hj
        simpa using not_le.mpr (hlt i (List.mem_cons_self i rest) j
          (List.mem_cons_of_mem i hj) (hhead j hj))
      simp only [greedyAux, hacc, hrem, List.map_cons]
      congr 1
      exact ih rest (by simpa using Nat.le_of_succ_le_succ (by simpa using hf)) htail
        (fun a ha b hb hab =>
          hlt a (List.mem_cons_of_mem i ha) b (List.mem_cons_of_mem i hb) hab)

theorem map_getD_range (l : List α) (d : α) :
    (List.range l.length).map (fun i => l.getD i d) = l := by
  induction l with
  | nil => rfl
  | cons a t ih =>
    rw [List.length_cons, List.range_succ_eq_map, List.map_cons, List.map_map]
    have hfun : ((fun i => (a :: t).getD i d) ∘ Nat.succ) = fun i => t.getD i d := by
      funext i
      simp [Function.comp]
    rw [hfun, ih]
    rfl

/-- C7 (amended): when no two input Changes share a file path, every
off-diagonal similarity is at most 0.91 < 1, so clustering at threshold 1.0
(before any capping) yields exactly one singleton cluster per input Change,
each with Score 1.0.  Distinct Changes *sharing* a path can still reach
similarity 1.0 and be grouped — see
`threshold_one_groups_distinct_changes`. -/
theorem performClustering_threshold_one (changes : List Change)
    (hdisj : changes.Pairwise (fun a b => ∀ f ∈ a.Files, f ∉ b.Files)) :
    performClustering changes (calculateSimilarities changes) 1 =
      changes.map (fun c => { Changes := [c], Score := 1 }) := by
  have hlt : ∀ i ∈ List.range changes.length, ∀ j ∈ List.range changes.length,
      i < j → calculateSimilarities changes i j < 1 := by
    intro i hi j hj hij
    rw [List.mem_range] at hi hj
    rw [calculateSimilarities, if_neg (Nat.ne_of_lt hij), if_pos hij,
      getD_eq_getElem_of_lt _ _ _ hi, getD_eq_getElem_of_lt _ _ _ hj]
    exact calculateSimilarity_lt_one _ _
      (List.pairwise_iff_getElem.mp hdisj i j hi hj hij)
  rw [performClustering, greedyIndexClusters,
    greedyAux_singletons _ _ _ _ le_rfl (List.pairwise_lt_range _) hlt, List.map_map]
  conv_rhs => rw [← map_getD_range changes defaultChange]
  rw [List.map_map]
  rfl

/-- Witness for C7 (amended) on two Changes with disjoint file sets. -/
theorem performClustering_threshold_one_witness :
    performClustering [noFuncChange, pathChangeDX]
        (calculateSimilarities [noFuncChange, pathChangeDX]) 1 =
      [{ Changes := [noFuncChange], Score := 1 }, { Changes := [pathChangeDX], Score := 1 }] :=
  performClustering_threshold_one [noFuncChange, pathChangeDX] (by decide)

/-! ## C8: `mergeClusters` returns exactly `min (original count) maximum`
clusters (for a validated cap ≥ 1) -/

/-- The selection fold only ever returns its starting pair or a scanned pair. -/
theorem foldl_min_mem (cs : List Cluster) :
    ∀ (l : List (Nat × Nat)) (init : Nat × Nat),
      l.foldl (fun best p => if pairSize cs p < pairSize cs best then p else best) init ∈
        init :: l := by
  intro l
  induction l with
  | nil => intro init; simp
  | cons p rest ih =>
    intro init
    rw [List.foldl_cons]
    by_cases h : pairSize cs p < pairSize cs init
    · rw [if_pos h]
      exact List.mem_cons_of_mem _ (ih p)
    · rw [if_neg h]
      rcases List.mem_cons.mp (ih init) with h' | h'
      · rw [h']
        exact List.mem_cons_self _ _
      · exact List.mem_cons_of_mem _ (List.mem_cons_of_mem _ h')

theorem indexPairs_bounds {n : Nat} {p : Nat × Nat} (h : p ∈ indexPairs n) :
    p.1 < p.2 ∧ p.2 < n := by
  rw [indexPairs] at h
  rcases List.mem_flatMap.mp h with ⟨i, _, hp⟩
  rcases List.mem_map.mp hp with ⟨j, hj, rfl⟩
  rcases List.mem_filter.mp hj with ⟨hjr, hij⟩
  exact ⟨by simpa using hij, List.mem_range.mp hjr⟩

/-- With at least two clusters, `findMinPair` returns indices `i < j < n`
(the Go loop starts from the pair `(0, 1)` and only moves to scanned pairs). -/
theorem findMinPair_bounds (cs : List Cluster) (h2 : 2 ≤ cs.length) :
    (findMinPair cs).1 < (findMinPair cs).2 ∧ (findMinPair cs).2 < cs.length := by
  rcases List.mem_cons.mp (foldl_min_mem cs (indexPairs cs.length) (0, 1)) with h | h
  · rw [findMinPair, h]
    exact ⟨Nat.zero_lt_one, h2⟩
  · exact indexPairs_bounds h

theorem mergeStep_length (cs : List Cluster) (h2 : 2 ≤ cs.length) :
    (mergeStep cs).length = cs.length - 1 := by
  obtain ⟨hij, hj⟩ := findMinPair_bounds cs h2
  rw [mergeStep, removeIdxPair, List.length_append,
    List.length_eraseIdx_of_lt (by rw [List.length_eraseIdx_of_lt hj]; omega),
    List.length_eraseIdx_of_lt hj]
  simp
  omega

theorem mergeClustersAux_length (maxClusters : Nat) (hmax : 1 ≤ maxClusters) :
    ∀ (fuel : Nat) (cs : List Cluster), cs.length ≤ fuel + maxClusters →
      (mergeClustersAux fuel cs maxClusters).length = min cs.length maxClusters := by
  intro fuel
  induction fuel with
  | zero =>
    intro cs h
    rw [mergeClustersAux]
    omega
  | succ fuel ih =>
    intro cs h
    by_cases hle : cs.length ≤ maxClusters
    · rw [mergeClustersAux, if_pos hle]
      omega
    · rw [mergeClustersAux, if_neg hle,
        ih (mergeStep cs) (by rw [mergeStep_length cs (by omega)]; omega),
        mergeStep_length cs (by omega)]
      omega

/-- C8: for a validated maximum cluster count (≥ 1, as §6/§7 of the spec
require of configuration), `mergeClusters` returns at most `maximum`
clusters and at least `min maximum (original count)` clusters.  (With
`maximum = 0` and a non-empty input the Go code would index out of range
and panic rather than return a list.) -/
theorem mergeClusters_length (cs : List Cluster) (maxClusters : Nat)
    (hmax : 1 ≤ maxClusters) :
    (mergeClusters cs maxClusters).length ≤ maxClusters ∧
    min maxClusters cs.length ≤ (mergeClusters cs maxClusters).length := by
  rw [mergeClusters]
  by_cases hle : cs.length ≤ maxClusters
  · rw [if_pos hle]
    omega
  · rw [if_neg hle]
    have := mergeClustersAux_length maxClusters hmax cs.length cs (by omega)
    omega

/-- Witness for C8 on three singleton clusters capped at 1. -/
theorem mergeClusters_length_witness :
    (mergeClusters [⟨[pathChangeDX], 1⟩, ⟨[pathChangeDY], 1⟩, ⟨[noFuncChange], 1⟩] 1).length ≤ 1 ∧
    min 1 ([⟨[pathChangeDX], 1⟩, ⟨[pathChangeDY], 1⟩, ⟨[noFuncChange], 1⟩] :
        List Cluster).length ≤
      (mergeClusters [⟨[pathChangeDX], 1⟩, ⟨[pathChangeDY], 1⟩, ⟨[noFuncChange], 1⟩] 1).length :=
  mergeClusters_length [⟨[pathChangeDX], 1⟩, ⟨[pathChangeDY], 1⟩, ⟨[noFuncChange], 1⟩] 1
    (by decide)

/-! ## C1: the output clusters partition the input Change list -/

/-- The seeds/accepted index lists of the greedy pass are a permutation of
the processed index list: accepted and rejected indices split `rest` by a
filter and its negation. -/
theorem greedyAux_join_perm (sims : Nat → Nat → ℚ) (th : ℚ) :
    ∀ (fuel : Nat) (l : List Nat), l.length ≤ fuel →
      List.Perm ((greedyAux sims th fuel l).flatMap (fun p => p.1 :: p.2)) l := by
  intro fuel
  induction fuel with
  | zero =>
    intro l hf
    obtain rfl := List.length_eq_zero.mp (Nat.le_zero.mp hf)
    exact List.Perm.refl _
  | succ fuel ih =>
    intro l hf
    cases l with
    | nil => exact List.Perm.refl _
    | cons i rest =>
      simp only [greedyAux, List.flatMap_cons, List.cons_append]
      refine List.Perm.cons i ?_
      have hrem := ih (rest.filter (fun j => !decide (th ≤ sims i j)))
        (le_trans (List.length_filter_le _ _) (by simpa using hf))
      exact (hrem.append_left _).trans (List.filter_append_perm _ _)

theorem performClustering_join_perm (changes : List Change) (sims : Nat → Nat → ℚ)
    (th : ℚ) :
    List.Perm ((performClustering changes sims th).flatMap Cluster.Changes) changes := by
  rw [performClustering, greedyIndexClusters, List.flatMap_map]
  have hswap : ((greedyAux sims th (List.range changes.length).length
          (List.range changes.length)).flatMap
        (fun p => changes.getD p.1 defaultChange ::
          p.2.map (fun j => changes.getD j defaultChange))) =
      ((greedyAux sims th (List.range changes.length).length
          (List.range changes.length)).flatMap
        (fun p => p.1 :: p.2)).map (fun j => changes.getD j defaultChange) := by
    rw [List.map_flatMap]
    rfl
  rw [hswap]
  have hperm := (greedyAux_join_perm sims th (List.range changes.length).length
    (List.range changes.length) le_rfl).map (fun j => changes.getD j defaultChange)
  exact hperm.trans (by rw [map_getD_range changes defaultChange])

theorem cons_eraseIdx_perm {α} [DecidableEq α] (l : List α) (i : Nat) (h : i < l.length) :
    List.Perm (l[i] :: l.eraseIdx i) l := by
  have h1 : List.Perm l (l[i] :: l.erase l[i]) := List.perm_cons_erase (l.getElem_mem h)
  have h2 : List.Perm (l.erase l[i]) (l.eraseIdx i) := List.erase_getElem h
  exact ((h2.cons _).symm).trans h1.symm

/-- One merge iteration preserves the multiset of Changes: the two removed
clusters' change lists reappear concatenated in the merged cluster. -/
theorem mergeStep_join_perm (cs : List Cluster) (h2 : 2 ≤ cs.length) :
    List.Perm ((mergeStep cs).flatMap Cluster.Changes) (cs.flatMap Cluster.Changes) := by
  obtain ⟨hij, hjlen⟩ := findMinPair_bounds cs h2
  have hilen : (findMinPair cs).1 < cs.length := lt_trans hij hjlen
  have hilen' : (findMinPair cs).1 < (cs.eraseIdx (findMinPair cs).2).length := by
    rw [List.length_eraseIdx_of_lt hjlen]
    omega
  have hgete : (cs.eraseIdx (findMinPair cs).2)[(findMinPair cs).1] = cs[(findMinPair cs).1] :=
    List.getElem_eraseIdx_of_lt cs (findMinPair cs).2 (findMinPair cs).1 hilen' hij
  have hperm1 : List.Perm (cs[(findMinPair cs).2] :: cs.eraseIdx (findMinPair cs).2) cs :=
    cons_eraseIdx_perm cs (findMinPair cs).2 hjlen
  have hperm2 : List.Perm
      (cs[(findMinPair cs).1] :: (cs.eraseIdx (findMinPair cs).2).eraseIdx (findMinPair cs).1)
      (cs.eraseIdx (findMinPair cs).2) := by
    have := cons_eraseIdx_perm (cs.eraseIdx (findMinPair cs).2) (findMinPair cs).1 hilen'
    rwa [hgete] at this
  have hlist : List.Perm
      (removeIdxPair cs (findMinPair cs).1 (findMinPair cs).2 ++
        [cs[(findMinPair cs).1], cs[(findMinPair cs).2]]) cs := by
    rw [removeIdxPair]
    refine List.perm_append_comm.trans ?_
    refine List.Perm.trans ?_ ((hperm2.cons cs[(findMinPair cs).2]).trans hperm1)
    exact List.Perm.swap _ _ _
  have heq : (mergeStep cs).flatMap Cluster.Changes =
      (removeIdxPair cs (findMinPair cs).1 (findMinPair cs).2 ++
        [cs[(findMinPair cs).1], cs[(findMinPair cs).2]]).flatMap Cluster.Changes := by
    simp only [mergeStep, List.flatMap_append, List.flatMap_cons, List.flatMap_nil,
      List.append_nil, List.append_assoc,
      getD_eq_getElem_of_lt cs defaultCluster (findMinPair cs).1 hilen,
      getD_eq_getElem_of_lt cs defaultCluster (findMinPair cs).2 hjlen]
  rw [heq]
  exact hlist.flatMap_right Cluster.Changes

theorem mergeClustersAux_join_perm (maxClusters : Nat) (hmax : 1 ≤ maxClusters) :
    ∀ (fuel : Nat) (cs : List Cluster),
      List.Perm ((mergeClustersAux fuel cs maxClusters).flatMap Cluster.Changes)
        (cs.flatMap Cluster.Changes) := by
  intro fuel
  induction fuel with
  | zero =>
    intro cs
    rw [mergeClustersAux]
  | succ fuel ih =>
    intro cs
    by_cases hle : cs.length ≤ maxClusters
    · rw [mergeClustersAux, if_pos hle]
    · rw [mergeClustersAux, if_neg hle]
      exact (ih (mergeStep cs)).trans (mergeStep_join_perm cs (by omega))

theorem mergeClusters_join_perm (cs : List Cluster) (maxClusters : Nat)
    (hmax : 1 ≤ maxClusters) :
    List.Perm ((mergeClusters cs maxClusters).flatMap Cluster.Changes)
      (cs.flatMap Cluster.Changes) := by
  rw [mergeClusters]
  by_cases hle : cs.length ≤ maxClusters
  · rw [if_pos hle]
  · rw [if_neg hle]
    exact mergeClustersAux_join_perm maxClusters hmax cs.length cs

/-- C1: for every input Change list, every threshold and every validated
maximum cluster count (≥ 1; with 0 the Go merge loop indexes out of range
and panics, returning nothing), the Clusters returned by `ClusterChanges`
partition the input exactly: the concatenation of their Change lists is a
permutation of the input, so every input Change occurrence lands in exactly
one cluster, with no omissions and no duplicates. -/
theorem ClusterChanges_partition (cfg : MultiCommitConfig) (changes : List Change)
    (hmax : 1 ≤ cfg.maxClusters) :
    List.Perm ((ClusterChanges cfg changes).flatMap Cluster.Changes) changes := by
  rw [ClusterChanges]
  by_cases h : cfg.enabled = false ∨ changes.length ≤ 1
  · rw [if_pos h]
    simp only [List.flatMap_cons, List.flatMap_nil, List.append_nil]
    exact List.Perm.refl _
  · rw [if_neg h]
    by_cases hcap : cfg.maxClusters <
        (performClustering changes (calculateSimilarities changes)
          cfg.similarityThreshold).length
    · rw [if_pos hcap]
      exact (mergeClusters_join_perm _ _ hmax).trans
        (performClustering_join_perm changes (calculateSimilarities changes)
          cfg.similarityThreshold)
    · rw [if_neg hcap]
      exact performClustering_join_perm changes (calculateSimilarities changes)
        cfg.similarityThreshold

/-- Witness for C1 at a concrete enabled configuration whose cap (1) forces
merging of the three clusters produced at threshold 1/2. -/
theorem ClusterChanges_partition_witness :
    List.Perm ((ClusterChanges ⟨true, 1, 1/2, false⟩
        [pathChangeDX, pathChangeDY, noFuncChange]).flatMap Cluster.Changes)
      [pathChangeDX, pathChangeDY, noFuncChange] :=
  ClusterChanges_partition ⟨true, 1, 1/2, false⟩
    [pathChangeDX, pathChangeDY, noFuncChange] (by decide)

/-! ## C2: failure of a commit aborts the run with one restore and the
failing proposal's index -/

/-- A fully successful `createCommit` for a non-final proposal: every
primitive runs once, one commit is created, and the remainder is re-stashed. -/
theorem createCommit_success (o : GitOracle) (p : CommitProposal) (index total : Nat)
    (t : Trace)
    (hr : o.restoreOk t.restoreCalls = true) (hre : o.resetOk t.resetCalls = true)
    (hch : o.stagedNonEmpty t.checkCalls = true) (hco : o.commitOk t.commitCalls = true)
    (hst : o.stashOk t.stashCalls = true) (hidx : index < total) :
    createCommit o p index total t =
      (none, { t with restoreCalls := t.restoreCalls + 1,
                      resetCalls := t.resetCalls + 1,
                      stageCalls := t.stageCalls + p.Files.length,
                      checkCalls := t.checkCalls + 1,
                      commitCalls := t.commitCalls + 1,
                      commitsCreated := t.commitsCreated + 1,
                      stashCalls := t.stashCalls + 1 }) := by
  simp [createCommit, hr, hre, hch, hco, hst, hidx]

/-- A `createCommit` whose `git commit` step fails: restore, reset, staging
and the staged-check all ran, the commit was attempted but not created, and
no re-stash happens. -/
theorem createCommit_commit_failed (o : GitOracle) (p : CommitProposal) (index total : Nat)
    (t : Trace)
    (hr : o.restoreOk t.restoreCalls = true) (hre : o.resetOk t.resetCalls = true)
    (hch : o.stagedNonEmpty t.checkCalls = true) (hco : o.commitOk t.commitCalls = false) :
    createCommit o p index total t =
      (some "git commit failed", { t with restoreCalls := t.restoreCalls + 1,
                                          resetCalls := t.resetCalls + 1,
                                          stageCalls := t.stageCalls + p.Files.length,
                                          checkCalls := t.checkCalls + 1,
                                          commitCalls := t.commitCalls + 1 }) := by
  simp [createCommit, hr, hre, hch, hco]

/-- The proposal loop when every git primitive succeeds except the
`git commit` of the (k+1)-st processed proposal: the first k proposals each
create a commit, the failing proposal is the last one attempted, exactly one
abort-path restore is recorded, and the error carries the failing proposal's
1-based index. -/
theorem execLoop_commit_fail (o : GitOracle)
    (hr : ∀ n, o.restoreOk n = true) (hre : ∀ n, o.resetOk n = true)
    (hch : ∀ n, o.stagedNonEmpty n = true) (hst : ∀ n, o.stashOk n = true) :
    ∀ (k : Nat) (ps : List CommitProposal) (i total : Nat) (t : Trace),
      k < ps.length → i + k + 1 ≤ total →
      (∀ n, n < t.commitCalls + k → o.commitOk n = true) →
      o.commitOk (t.commitCalls + k) = false →
      execLoop o ps i total t =
        (some (.commitFailed (i + k + 1) "git commit failed"),
         { t with
           restoreCalls := t.restoreCalls + (k + 2)
           abortRestoreCalls := t.abortRestoreCalls + 1
           resetCalls := t.resetCalls + (k + 1)
           stageCalls := t.stageCalls + ((ps.take (k + 1)).map (fun p => p.Files.length)).sum
           checkCalls := t.checkCalls + (k + 1)
           commitCalls := t.commitCalls + (k + 1)
           commitsCreated := t.commitsCreated + k
           stashCalls := t.stashCalls + k
           attempted := t.attempted ++ List.range' (i + 1) (k + 1) }) := by
  intro k
  induction k with
  | zero =>
    intro ps i total t hk htot hok hbad
    obtain ⟨p, rest, rfl⟩ := List.exists_cons_of_ne_nil (List.ne_nil_of_length_pos hk)
    have hstep := createCommit_commit_failed o p (i + 1) total
      { t with attempted := t.attempted ++ [i + 1] } (hr _) (hre _) (hch _)
      (by simpa using hbad)
    rw [execLoop, hstep]
    refine Prod.ext rfl ?_
    refine Trace.ext ?_ ?_ ?_ ?_ ?_ ?_ ?_ ?_ ?_ <;> simp
  | succ k ihk =>
    intro ps i total t hk htot hok hbad
    obtain ⟨p, rest, rfl⟩ := List.exists_cons_of_ne_nil (List.ne_nil_of_length_pos
      (Nat.lt_of_lt_of_le (Nat.zero_lt_succ k) (Nat.le_of_lt hk)))
    have hstep := createCommit_success o p (i + 1) total
      { t with attempted := t.attempted ++ [i + 1] } (hr _) (hre _) (hch _)
      (hok t.commitCalls (by omega)) (hst _) (by omega)
    rw [execLoop, hstep]
    show execLoop o rest (i + 1) total _ = _
    rw [ihk rest (i + 1) total _
      (by simp only [List.length_cons] at hk; omega)
      (by omega)
      (fun n hn => hok n (by
        have hn' : n < t.commitCalls + 1 + k := hn
        omega))
      (by
        show o.commitOk (t.commitCalls + 1 + k) = false
        have h1 : t.commitCalls + 1 + k = t.commitCalls + (k + 1) := by omega
        rw [h1]
        exact hbad)]
    refine Prod.ext ?_ ?_
    · simp only [Option.some.injEq, MCError.commitFailed.injEq]
      exact ⟨by omega, trivial⟩
    · refine Trace.ext ?_ ?_ ?_ ?_ ?_ ?_ ?_ ?_ ?_ <;>
        simp [List.take_succ_cons, List.range'_succ] <;>
        try omega

/-- C2: during `ExecuteMultiCommit` (two or more proposals, no prompting),
if every git primitive succeeds except the `git commit` of the (k+1)-st
proposal, then: the error identifies the failing proposal's 1-based index
`k + 1` with the underlying cause; exactly `k` commits were created (one per
earlier proposal); exactly one best-effort abort-path restore of the
outstanding snapshot is attempted (`abortRestoreCalls = 1`); and only
proposals `1 … k+1` were ever attempted (`attempted = [1, …, k+1]`), the
remaining ones never started.  The per-proposal Restore steps of the normal
flow (spec §4.5) are recorded separately in `restoreCalls`. -/
theorem ExecuteMultiCommit_commit_failure (o : GitOracle) (ps : List CommitProposal)
    (k : Nat) (hlen : 2 ≤ ps.length) (hk : k < ps.length)
    (hr : ∀ n, o.restoreOk n = true) (hre : ∀ n, o.resetOk n = true)
    (hch : ∀ n, o.stagedNonEmpty n = true) (hst : ∀ n, o.stashOk n = true)
    (hok : ∀ n, n < k → o.commitOk n = true) (hbad : o.commitOk k = false) :
    ExecuteMultiCommit o false ps =
      (some (.commitFailed (k + 1) "git commit failed"),
       { restoreCalls := k + 2
         abortRestoreCalls := 1
         resetCalls := k + 1
         stageCalls := ((ps.take (k + 1)).map (fun p => p.Files.length)).sum
         checkCalls := k + 1
         commitCalls := k + 1
         commitsCreated := k
         stashCalls := 1 + k
         attempted := List.range' 1 (k + 1) }) := by
  rw [ExecuteMultiCommit, if_neg (by omega), if_neg (by simp),
    if_neg (by simp [emptyTrace, hst 0])]
  rw [execLoop_commit_fail o hr hre hch hst k ps 0 ps.length _ hk (by omega)
    (fun n hn => hok n (by
      have hn' : n < 0 + k := hn
      omega))
    (by
      show o.commitOk (0 + k) = false
      rw [Nat.zero_add]
      exact hbad)]
  refine Prod.ext ?_ ?_
  · simp
  · refine Trace.ext ?_ ?_ ?_ ?_ ?_ ?_ ?_ ?_ ?_ <;> simp [emptyTrace]

/-- The oracle of the simulated run: every primitive succeeds except the
second `git commit`. -/
def failingOracle : GitOracle :=
  ⟨fun _ => true, fun _ => true, fun _ => true, fun n => decide (n ≠ 1), fun _ => true, true⟩

/-- Witness for C2: a simulated failure on the second of three proposals
yields exactly one created commit, exactly one abort-path restore attempt,
a reported failing-proposal index of 2, and no attempt at proposal 3. -/
theorem ExecuteMultiCommit_commit_failure_witness :
    ExecuteMultiCommit failingOracle false
        [⟨["f1"], "m1", []⟩, ⟨["f2"], "m2", []⟩, ⟨["f3"], "m3", []⟩] =
      (some (.commitFailed 2 "git commit failed"),
       { restoreCalls := 3
         abortRestoreCalls := 1
         resetCalls := 2
         stageCalls := 2
         checkCalls := 2
         commitCalls := 2
         commitsCreated := 1
         stashCalls := 2
         attempted := [1, 2] }) := by
  have h := ExecuteMultiCommit_commit_failure failingOracle
    [⟨["f1"], "m1", []⟩, ⟨["f2"], "m2", []⟩, ⟨["f3"], "m3", []⟩] 1
    (by decide) (by decide)
    (fun n => rfl) (fun n => rfl) (fun n => rfl) (fun n => rfl)
    (fun n hn => by
      have : n = 0 := by omega
      subst this
      rfl)
    rfl
  exact h

end GitMind
